import Mathlib

/-!
Verification of the ticket-score-service scoring core.

The Go services operate on midnight-UTC dates. We embed such a date as an
integer day number counted from 0001-01-01 of the proleptic Gregorian
calendar (day 0 is a Monday), which is exactly the information content of
the `time.Time` values the services construct. The civil conversions
`civilFromDays` and `daysFromCivil` below model the Go standard library
calendar (`time.Date`, `time.Time.AddDate`, `Format("2006-01-02")`):
both implement the proleptic Gregorian calendar with the usual leap rule,
month normalization by floored division, and day normalization by plain
addition of a day count, as the Go `time` package documents and does.

Floating-point arithmetic of the Go code is embedded as exact rational
arithmetic over ℚ, the standard idealization for specifications that state
algebraic facts about score formulas.
-/

/-- Leap-year predicate of the proleptic Gregorian calendar, as used by the
Go time package. -/
def isLeap (y : ℤ) : Prop := y % 4 = 0 ∧ (y % 100 ≠ 0 ∨ y % 400 = 0)

instance (y : ℤ) : Decidable (isLeap y) :=
  inferInstanceAs (Decidable (y % 4 = 0 ∧ (y % 100 ≠ 0 ∨ y % 400 = 0)))

/-- Number of days of year y. -/
def daysInYear (y : ℤ) : ℤ := if isLeap y then 366 else 365

theorem daysInYear_bounds (y : ℤ) : 365 ≤ daysInYear y ∧ daysInYear y ≤ 366 := by
  unfold daysInYear; split_ifs <;> omega

/-- Day number of the first day of year y (counting from 0001-01-01 = day 0). -/
def yearsDays (y : ℤ) : ℤ := 365 * (y - 1) + (y - 1) / 4 - (y - 1) / 100 + (y - 1) / 400

theorem yearsDays_succ (y : ℤ) : yearsDays (y + 1) = yearsDays y + daysInYear y := by
  unfold yearsDays daysInYear isLeap
  split_ifs <;> omega

/-- Number of days of month m of year y, for m between 1 and 12. -/
def daysInMonth (y m : ℤ) : ℤ :=
  if m = 1 then 31 else if m = 2 then (if isLeap y then 29 else 28)
  else if m = 3 then 31 else if m = 4 then 30 else if m = 5 then 31
  else if m = 6 then 30 else if m = 7 then 31 else if m = 8 then 31
  else if m = 9 then 30 else if m = 10 then 31 else if m = 11 then 30 else 31

/-- Number of days of year y that precede the first day of month m. -/
def monthsDays (y m : ℤ) : ℤ :=
  (if m ≤ 1 then 0 else if m ≤ 2 then 31 else
    (if isLeap y then 1 else 0) +
    (if m ≤ 3 then 59 else if m ≤ 4 then 90 else if m ≤ 5 then 120 else
     if m ≤ 6 then 151 else if m ≤ 7 then 181 else if m ≤ 8 then 212 else
     if m ≤ 9 then 243 else if m ≤ 10 then 273 else if m ≤ 11 then 304 else 334))

theorem monthsDays_succ (y m : ℤ) (h1 : 1 ≤ m) (h2 : m ≤ 11) :
    monthsDays y (m + 1) = monthsDays y m + daysInMonth y m := by
  interval_cases m <;> norm_num [monthsDays, daysInMonth] <;> split_ifs <;> omega

theorem monthsDays_last (y : ℤ) :
    monthsDays y 12 + daysInMonth y 12 = daysInYear y := by
  norm_num [monthsDays, daysInMonth, daysInYear]
  split_ifs <;> omega

/-- Greedy search for the year containing day-of-era n, starting at year y.
The fuel argument only bounds the recursion; 403 steps always suffice for
one 400-year cycle. -/
def findYearFrom (fuel : Nat) (y n : ℤ) : ℤ × ℤ :=
  match fuel with
  | 0 => (y, n)
  | fuel' + 1 => if n < daysInYear y then (y, n) else findYearFrom fuel' (y + 1) (n - daysInYear y)

theorem findYearFrom_spec (fuel : Nat) (y n : ℤ) (hn : 0 ≤ n) (hf : n < 365 * fuel) :
    yearsDays (findYearFrom fuel y n).1 + (findYearFrom fuel y n).2 = yearsDays y + n ∧
    0 ≤ (findYearFrom fuel y n).2 ∧
    (findYearFrom fuel y n).2 < daysInYear (findYearFrom fuel y n).1 := by
  induction fuel generalizing y n with
  | zero => omega
  | succ fuel' ih =>
    rw [findYearFrom]
    split_ifs with h
    · exact ⟨rfl, hn, h⟩
    · have hb := daysInYear_bounds y
      have := ih (y + 1) (n - daysInYear y) (by omega) (by omega)
      rw [yearsDays_succ] at this
      exact ⟨by omega, this.2.1, this.2.2⟩

/-- Greedy search for the month of year y containing day-of-year n, starting
at month m; 12 fuel steps always suffice. -/
def findMonthFrom (fuel : Nat) (y m n : ℤ) : ℤ × ℤ :=
  match fuel with
  | 0 => (m, n)
  | fuel' + 1 =>
    if m < 12 ∧ daysInMonth y m ≤ n then findMonthFrom fuel' y (m + 1) (n - daysInMonth y m)
    else (m, n)

theorem findMonthFrom_spec (fuel : Nat) (y m n : ℤ) (hm1 : 1 ≤ m) (hm2 : m ≤ 12)
    (hf : (12 - m).toNat ≤ fuel) (hn : 0 ≤ n)
    (hub : monthsDays y m + n < daysInYear y) :
    monthsDays y (findMonthFrom fuel y m n).1 + (findMonthFrom fuel y m n).2 =
      monthsDays y m + n ∧
    1 ≤ (findMonthFrom fuel y m n).1 ∧ (findMonthFrom fuel y m n).1 ≤ 12 ∧
    0 ≤ (findMonthFrom fuel y m n).2 ∧
    (findMonthFrom fuel y m n).2 < daysInMonth y (findMonthFrom fuel y m n).1 := by
  induction fuel generalizing m n with
  | zero =>
    have hm12 : m = 12 := by omega
    subst hm12
    rw [findMonthFrom]
    have := monthsDays_last y
    exact ⟨rfl, by omega, by omega, hn, by dsimp only; omega⟩
  | succ fuel' ih =>
    rw [findMonthFrom]
    split_ifs with h
    · have hstep := monthsDays_succ y m hm1 (by omega)
      have := ih (m + 1) (n - daysInMonth y m) (by omega) (by omega) (by omega) (by omega)
        (by omega)
      exact ⟨by omega, this.2.1, this.2.2.1, this.2.2.2.1, this.2.2.2.2⟩
    · by_cases h12 : m = 12
      · subst h12
        have := monthsDays_last y
        exact ⟨rfl, by omega, by omega, hn, by dsimp only; omega⟩
      · push_neg at h
        exact ⟨rfl, hm1, hm2, hn, by dsimp only; omega⟩

/-- Civil triple (year, month, day) of a day number, proleptic Gregorian. -/
def civilFromDays (z : ℤ) : ℤ × ℤ × ℤ :=
  let q := z / 146097
  let r := z % 146097
  let yd := findYearFrom 403 (400 * q + 1) r
  let md := findMonthFrom 12 yd.1 1 yd.2
  (yd.1, md.1, md.2 + 1)

/-- Day number of a civil triple, with the Go time.Date month normalization
(months outside 1..12 roll the year by floored division; the day component
is added as a plain day count, so day overflow rolls forward). -/
def daysFromCivil (y m d : ℤ) : ℤ :=
  yearsDays (y + (m - 1) / 12) + monthsDays (y + (m - 1) / 12) ((m - 1) % 12 + 1) + (d - 1)

theorem yearsDays_cycle (q : ℤ) : yearsDays (400 * q + 1) = 146097 * q := by
  unfold yearsDays
  omega

theorem monthsDays_one (y : ℤ) : monthsDays y 1 = 0 := by norm_num [monthsDays]

theorem civilFromDays_spec (z : ℤ) :
    1 ≤ (civilFromDays z).2.1 ∧ (civilFromDays z).2.1 ≤ 12 ∧
    1 ≤ (civilFromDays z).2.2 ∧
    (civilFromDays z).2.2 ≤ daysInMonth (civilFromDays z).1 (civilFromDays z).2.1 ∧
    yearsDays (civilFromDays z).1 + monthsDays (civilFromDays z).1 (civilFromDays z).2.1 +
      ((civilFromDays z).2.2 - 1) = z := by
  unfold civilFromDays
  have hq : 146097 * (z / 146097) + z % 146097 = z := by omega
  have hr : 0 ≤ z % 146097 := by omega
  have hr2 : z % 146097 < 146097 := by omega
  have hy := findYearFrom_spec 403 (400 * (z / 146097) + 1) (z % 146097) hr (by omega)
  rw [yearsDays_cycle] at hy
  have h1 := monthsDays_one (findYearFrom 403 (400 * (z / 146097) + 1) (z % 146097)).1
  have hm := findMonthFrom_spec 12 (findYearFrom 403 (400 * (z / 146097) + 1) (z % 146097)).1 1
    (findYearFrom 403 (400 * (z / 146097) + 1) (z % 146097)).2 (by omega) (by omega)
    (by omega) hy.2.1 (by omega)
  dsimp only
  exact ⟨hm.2.1, hm.2.2.1, by omega, by omega, by omega⟩

theorem daysFromCivil_civilFromDays (z : ℤ) :
    daysFromCivil (civilFromDays z).1 (civilFromDays z).2.1 (civilFromDays z).2.2 = z := by
  have h := civilFromDays_spec z
  unfold daysFromCivil
  have hm1 : ((civilFromDays z).2.1 - 1) / 12 = 0 := by omega
  have hm2 : ((civilFromDays z).2.1 - 1) % 12 + 1 = (civilFromDays z).2.1 := by omega
  rw [hm1, hm2]
  simp only [add_zero]
  omega

/-- Go time.AddDate on a midnight-UTC date given as a day number. -/
def addDate (t years months days : ℤ) : ℤ :=
  daysFromCivil ((civilFromDays t).1 + years) ((civilFromDays t).2.1 + months)
    ((civilFromDays t).2.2 + days)

theorem addDate_days (t k : ℤ) : addDate t 0 0 k = t + k := by
  have h := civilFromDays_spec t
  unfold addDate daysFromCivil
  have hm1 : ((civilFromDays t).2.1 + 0 - 1) / 12 = 0 := by omega
  have hm2 : ((civilFromDays t).2.1 + 0 - 1) % 12 + 1 = (civilFromDays t).2.1 := by omega
  rw [hm1, hm2]
  simp only [add_zero]
  omega

/-- Go time.Weekday of a day number: Sunday = 0, ..., Saturday = 6.
Day 0 (0001-01-01 proleptic Gregorian) is a Monday. -/
def weekday (t : ℤ) : ℤ := (t + 1) % 7

/-- Decimal digits of a nonnegative integer, zero-padded to two places,
as the 01 and 02 verbs of Go time formatting produce. -/
def pad2 (n : ℤ) : String := if n < 10 then "0" ++ toString n else toString n

/-- Decimal digits of a year, zero-padded to four places (2006 verb). -/
def pad4 (n : ℤ) : String :=
  if n < 10 then "000" ++ toString n
  else if n < 100 then "00" ++ toString n
  else if n < 1000 then "0" ++ toString n
  else toString n

/-- Go Format("2006-01-02") of a midnight-UTC date. -/
def formatDate (t : ℤ) : String :=
  pad4 (civilFromDays t).1 ++ "-" ++ pad2 (civilFromDays t).2.1 ++ "-" ++
    pad2 (civilFromDays t).2.2

/-- utils.FormatDateRange: a single date renders alone, otherwise
"start to end". -/
def FormatDateRange (startDate endDate : ℤ) : String :=
  if startDate = endDate then formatDate startDate
  else formatDate startDate ++ " to " ++ formatDate endDate

/-! ## Data model (internal/models) -/

/-- models.Rating. The createdAt day number is carried but, as in the Go
services, never read by the scoring code. -/
structure Rating where
  id : ℤ
  rating : ℤ
  ticketID : ℤ
  ratingCategoryID : ℤ
  reviewerID : ℤ
  revieweeID : ℤ
  createdAt : ℤ
deriving DecidableEq, Repr

/-- models.RatingCategory. The weight is embedded as a rational so that the
integer-weight and float-weight revisions of the model are both instances. -/
structure RatingCategory where
  id : ℤ
  name : String
  weight : ℚ
deriving DecidableEq, Repr

/-- Lookup in the Go map built by ranging over the category list: a later
entry with the same id overwrites an earlier one. -/
def categoryWeight (categories : List RatingCategory) (cid : ℤ) : Option ℚ :=
  (categories.reverse.find? (fun c => c.id == cid)).map (fun c => c.weight)

/-! ## ScoreFormula (internal/service/ticket_score.go, CalculateScore) -/

/-- Loop body of CalculateScore: walk the ratings accumulating the weighted
sum and the maximum possible sum, failing on the first rating whose category
is absent or whose value is out of the 0..5 range. -/
def scoreLoop (categories : List RatingCategory) :
    List Rating → ℚ → ℚ → Except String (ℚ × ℚ)
  | [], w, m => .ok (w, m)
  | r :: rs, w, m =>
    match categoryWeight categories r.ratingCategoryID with
    | none => .error "rating category not found"
    | some wt =>
      if r.rating < 0 ∨ 5 < r.rating then .error "rating value is out of range (0-5)"
      else scoreLoop categories rs (w + (r.rating : ℚ) * wt) (m + wt * 5)

/-- TicketScoreService.CalculateScore. -/
def CalculateScore (ratings : List Rating) (categories : List RatingCategory) :
    Except String ℚ :=
  if ratings.length = 0 then .error "no ratings provided"
  else
    match scoreLoop categories ratings 0 0 with
    | .error e => .error e
    | .ok (w, m) =>
      if m = 0 then .error "total possible score is zero"
      else .ok (w / m * 100)

/-- Weighted sum of the ratings, with absent categories contributing 0
(only quoted under the hypothesis that every category is present). -/
def weightedSum (categories : List RatingCategory) (ratings : List Rating) : ℚ :=
  (ratings.map (fun r => (r.rating : ℚ) * ((categoryWeight categories r.ratingCategoryID).getD 0))).sum

/-- Maximum possible sum of the ratings: weight times 5 for each rating. -/
def maxPossibleSum (categories : List RatingCategory) (ratings : List Rating) : ℚ :=
  (ratings.map (fun r => ((categoryWeight categories r.ratingCategoryID).getD 0) * 5)).sum

/-! ## Percentage formatting (internal/utils/utils.go and the local
formatScore of the service package) -/

/-- Round to the nearest integer, ties to even: the rounding of the Go
fmt %.0f verb (strconv fixed-precision formatting). -/
def roundHalfEven (q : ℚ) : ℤ :=
  if q - ⌊q⌋ < 1 / 2 then ⌊q⌋
  else if 1 / 2 < q - ⌊q⌋ then ⌊q⌋ + 1
  else if ⌊q⌋ % 2 = 0 then ⌊q⌋ else ⌊q⌋ + 1

/-- Go fmt.Sprintf("%.0f", q): magnitude rounded half-to-even, with a minus
sign for negative inputs (including negative values that round to 0). -/
def goFmt0 (q : ℚ) : String :=
  (if q < 0 then "-" else "") ++ toString (roundHalfEven |q|)

/-- service.formatScore: Sprintf("%.0f%%", score). -/
def formatScore (score : ℚ) : String := goFmt0 score ++ "%"

/-- utils.FormatScore: "0%" for an exact zero, otherwise Sprintf("%.0f%%"). -/
def FormatScore (score : ℚ) : String :=
  if score = 0 then "0%" else goFmt0 score ++ "%"

/-! ## ChunkedAggregationEngine (OverallQualityService) -/

/-- OverallQualityScore result record. -/
structure OverallQualityScore where
  period : String
  score : String
deriving DecidableEq, Repr

/-- calculateChunkWeightedScore: local (weightedSum, maxSum) pair of one
chunk. A category id absent from the list contributes the Go map zero value
0 as its weight; maxRating is the constant 5. -/
def calculateChunkWeightedScore (ratings : List Rating)
    (categories : List RatingCategory) : ℚ × ℚ :=
  ((ratings.map (fun r =>
      (r.rating : ℚ) * ((categoryWeight categories r.ratingCategoryID).getD 0))).sum,
   (ratings.map (fun r =>
      5 * ((categoryWeight categories r.ratingCategoryID).getD 0))).sum)

/-- The (offset, limit) page of chunk i: offset = i * chunkSize and the last
chunk is clipped to the total count, as processChunksConcurrently computes.
The repository model is the ordered list of the ratings in range, so the
paginated range query is drop-then-take. -/
def chunkPage (allRatings : List Rating) (chunkSize i : ℕ) : List Rating :=
  (allRatings.drop (i * chunkSize)).take
    (min chunkSize (allRatings.length - i * chunkSize))

/-- Pages of all chunks, in chunk order; numChunks = ceil(total/chunkSize). -/
def chunkPages (allRatings : List Rating) (chunkSize : ℕ) : List (List Rating) :=
  (List.range ((allRatings.length + chunkSize - 1) / chunkSize)).map
    (chunkPage allRatings chunkSize)

/-- aggregateChunkResults on the error-free chunk results: sum the pairs and
take the percentage, or 0 when the combined max sum is not positive. -/
def aggregateChunkResults (results : List (ℚ × ℚ)) : ℚ :=
  let totalWeightedScore := (results.map (fun p => p.1)).sum
  let totalMaxScore := (results.map (fun p => p.2)).sum
  if 0 < totalMaxScore then totalWeightedScore / totalMaxScore * 100 else 0

/-- processChunksConcurrently: the per-chunk pairs are combined by plain
summation, so the bounded-concurrency fan-out of the Go code is embedded by
its (deterministic) fan-in value. -/
def processChunksConcurrently (allRatings : List Rating)
    (categories : List RatingCategory) (chunkSize : ℕ) : ℚ :=
  aggregateChunkResults
    ((chunkPages allRatings chunkSize).map
      (fun page => calculateChunkWeightedScore page categories))

/-- OverallQualityService.GetOverallQualityScore with the default chunk size
of 1000. The repository is modelled by the ordered list of ratings in the
requested range (CountByDateRange is its length) and the category list; the
fetch-error paths of the Go code are outside this embedding. -/
def GetOverallQualityScore (allRatings : List Rating)
    (categories : List RatingCategory) (startDate endDate : ℤ) :
    OverallQualityScore :=
  if allRatings.length = 0 then
    { period := FormatDateRange startDate endDate, score := "N/A" }
  else
    { period := FormatDateRange startDate endDate,
      score := FormatScore (processChunksConcurrently allRatings categories 1000) }

/-! ## TicketFanoutScorer (TicketScoresService) -/

/-- TicketCategoryScore entry of a TicketScore. -/
structure TicketCategoryScore where
  categoryName : String
  score : String
deriving DecidableEq, Repr

/-- TicketScore record streamed per ticket. -/
structure TicketScore where
  ticketID : ℤ
  categories : List TicketCategoryScore
deriving DecidableEq, Repr

/-- Per-category worker of calculateTicketScore: fetch the ratings of the
ticket in that category and score them against the single-category list,
downgrading an empty fetch or a formula error to "N/A". The repository is
modelled by the pure fetch function of GetByTicketIDAndCategoryID. -/
def categoryScore (repoTicketCategory : ℤ → ℤ → List Rating) (ticketID : ℤ)
    (cat : RatingCategory) : TicketCategoryScore :=
  let ratings := repoTicketCategory ticketID cat.id
  if ratings.length = 0 then { categoryName := cat.name, score := "N/A" }
  else
    match CalculateScore ratings [cat] with
    | .error _ => { categoryName := cat.name, score := "N/A" }
    | .ok s => { categoryName := cat.name, score := formatScore s }

/-- calculateTicketScore: one goroutine per category sends its result on a
channel and the record is built in channel-arrival order. The arrival order
of the concurrent workers is not fixed by the Go scheduler, so it enters the
embedding as an explicit parameter: a list of category indices in the order
in which the per-category results are received. -/
def calculateTicketScore (repoTicketCategory : ℤ → ℤ → List Rating)
    (ticketID : ℤ) (categories : List RatingCategory)
    (arrival : List (Fin categories.length)) : TicketScore :=
  { ticketID := ticketID,
    categories := arrival.map (fun i =>
      categoryScore repoTicketCategory ticketID (categories.get i)) }

/-! ## CategoryAnalyticsEngine (RatingAnalyticsService) -/

/-- DailyScore record: a bucket label and its score string. -/
structure DailyScore where
  date : String
  score : String
deriving DecidableEq, Repr

/-- CategoryAnalytics record returned per category. -/
structure CategoryAnalytics where
  category : String
  ratings : ℕ
  dates : List DailyScore
  score : String
deriving DecidableEq, Repr

/-- calculateDailyScore: no ratings or a formula failure are downgraded to
the "N/A" sentinel for that day. -/
def calculateDailyScore (dailyRatings : List Rating) (category : RatingCategory)
    (dateStr : String) : DailyScore :=
  if dailyRatings.length = 0 then { date := dateStr, score := "N/A" }
  else
    match CalculateScore dailyRatings [category] with
    | .error _ => { date := dateStr, score := "N/A" }
    | .ok s => { date := dateStr, score := formatScore s }

/-- calculatePeriodScore: the weekly-bucket analogue of calculateDailyScore. -/
def calculatePeriodScore (ratings : List Rating) (category : RatingCategory)
    (periodStr : String) : DailyScore :=
  if ratings.length = 0 then { date := periodStr, score := "N/A" }
  else
    match CalculateScore ratings [category] with
    | .error _ => { date := periodStr, score := "N/A" }
    | .ok s => { date := periodStr, score := formatScore s }

/-- Day loop of calculateDailyScores. The per-category repository is the
pure per-day fetch function; the fuel is the number of loop iterations,
supplied exactly by the wrapper. -/
def calculateDailyScoresAux (repo : ℤ → List Rating) (category : RatingCategory)
    (endDate : ℤ) : ℤ → ℕ → List DailyScore × List Rating
  | _, 0 => ([], [])
  | current, fuel + 1 =>
    if current > endDate then ([], [])
    else
      let dailyRatings := repo current
      let ds := calculateDailyScore dailyRatings category (formatDate current)
      let rest := calculateDailyScoresAux repo category endDate (addDate current 0 0 1) fuel
      (ds :: rest.1, (if dailyRatings.length > 0 then dailyRatings else []) ++ rest.2)

/-- calculateDailyScores: one DailyScore per calendar day of the range, and
the accumulated ratings of the range. -/
def calculateDailyScores (repo : ℤ → List Rating) (category : RatingCategory)
    (startDate endDate : ℤ) : List DailyScore × List Rating :=
  calculateDailyScoresAux repo category endDate startDate (endDate + 1 - startDate).toNat

/-- getWeekStart: the Monday on or before the date, computed from the Go
weekday with Sunday remapped from 0 to 7. -/
def getWeekStart (date : ℤ) : ℤ :=
  addDate date 0 0 (-(((if weekday date = 0 then 7 else weekday date)) - 1))

/-- Day loop of getRatingsForDateRange: union of the per-day fetches. -/
def getRatingsForDateRangeAux (repo : ℤ → List Rating) (endDate : ℤ) :
    ℤ → ℕ → List Rating
  | _, 0 => []
  | current, fuel + 1 =>
    if current > endDate then []
    else repo current ++ getRatingsForDateRangeAux repo endDate (addDate current 0 0 1) fuel

/-- getRatingsForDateRange over an inclusive day range. -/
def getRatingsForDateRange (repo : ℤ → List Rating) (startDate endDate : ℤ) :
    List Rating :=
  getRatingsForDateRangeAux repo endDate startDate (endDate + 1 - startDate).toNat

/-- Week loop of calculateWeeklyScores: buckets advance by 7 days from the
Monday-aligned start, the bucket end is clipped to endDate, and the label is
always "start to end". -/
def calculateWeeklyScoresAux (repo : ℤ → List Rating) (category : RatingCategory)
    (endDate : ℤ) : ℤ → ℕ → List DailyScore × List Rating
  | _, 0 => ([], [])
  | weekStart, fuel + 1 =>
    if weekStart > endDate then ([], [])
    else
      let weekEnd := if addDate weekStart 0 0 6 > endDate then endDate
        else addDate weekStart 0 0 6
      let weeklyRatings := getRatingsForDateRange repo weekStart weekEnd
      let weekStr := formatDate weekStart ++ " to " ++ formatDate weekEnd
      let ds := calculatePeriodScore weeklyRatings category weekStr
      let rest := calculateWeeklyScoresAux repo category endDate
        (addDate weekStart 0 0 7) fuel
      (ds :: rest.1, (if weeklyRatings.length > 0 then weeklyRatings else []) ++ rest.2)

/-- calculateWeeklyScores from the Monday on or before startDate. -/
def calculateWeeklyScores (repo : ℤ → List Rating) (category : RatingCategory)
    (startDate endDate : ℤ) : List DailyScore × List Rating :=
  calculateWeeklyScoresAux repo category endDate (getWeekStart startDate)
    (endDate + 1 - getWeekStart startDate).toNat

/-- shouldUseWeeklyAggregation: endDate.Sub(startDate) compared against
30 * 24 hours; on midnight dates the duration is (endDate - startDate) days
of 24 hours each. -/
def shouldUseWeeklyAggregation (startDate endDate : ℤ) : Bool :=
  decide ((endDate - startDate) * 24 > 30 * 24)

/-- calculateScores dispatches between the weekly and the daily path. -/
def calculateScores (repo : ℤ → List Rating) (category : RatingCategory)
    (startDate endDate : ℤ) : List DailyScore × List Rating :=
  if shouldUseWeeklyAggregation startDate endDate then
    calculateWeeklyScores repo category startDate endDate
  else calculateDailyScores repo category startDate endDate

/-- calculateOverallScore: the whole-range score of one category, with the
empty set and formula failures downgraded to "N/A". -/
def calculateOverallScore (totalRatings : List Rating)
    (category : RatingCategory) : String :=
  if totalRatings.length = 0 then "N/A"
  else
    match CalculateScore totalRatings [category] with
    | .error _ => "N/A"
    | .ok s => formatScore s

/-- processCategoryAnalytics: assembles the analytics record of a category. -/
def processCategoryAnalytics (repo : ℤ → List Rating) (category : RatingCategory)
    (startDate endDate : ℤ) : CategoryAnalytics :=
  { category := category.name,
    ratings := (calculateScores repo category startDate endDate).2.length,
    dates := (calculateScores repo category startDate endDate).1,
    score := calculateOverallScore (calculateScores repo category startDate endDate).2
      category }

/-- GetCategoryAnalytics: one record per category of the store, in store
order; the repository fetch is GetByCategoryIDAndDate. -/
def GetCategoryAnalytics (repoAll : ℤ → ℤ → List Rating)
    (categories : List RatingCategory) (startDate endDate : ℤ) :
    List CategoryAnalytics :=
  categories.map (fun cat =>
    processCategoryAnalytics (fun d => repoAll cat.id d) cat startDate endDate)

/-- Inclusive day range as a list, for the closed forms of the loops. -/
def dayList (startDate endDate : ℤ) : List ℤ :=
  (List.range (endDate + 1 - startDate).toNat).map (fun i : ℕ => startDate + (i : ℤ))

/-- Week-bucket start days: every 7 days from ws while not after endDate. -/
def bucketStarts (ws endDate : ℤ) : List ℤ :=
  (List.range (((endDate + 1 - ws).toNat + 6) / 7)).map (fun i : ℕ => ws + 7 * (i : ℤ))

/-! ## PeriodComparator (period_comparison.go and the gRPC server date
derivation calculatePeriodDates) -/

/-- Period units of the comparison endpoint. -/
inductive PeriodType where
  | week
  | month
  | quarter
  | year
deriving DecidableEq, Repr

/-- calculatePeriodDates: the two consecutive periods derived from the
starting date, as (firstStart, firstEnd, secondStart, secondEnd). time.Date
of the Go code is daysFromCivil and AddDate is addDate. -/
def calculatePeriodDates (startingDate : ℤ) : PeriodType → ℤ × ℤ × ℤ × ℤ
  | .week =>
    (startingDate, addDate startingDate 0 0 6,
     addDate startingDate 0 0 7, addDate startingDate 0 0 13)
  | .month =>
    (startingDate,
     addDate (daysFromCivil (civilFromDays startingDate).1
       ((civilFromDays startingDate).2.1 + 1) 1) 0 0 (-1),
     daysFromCivil (civilFromDays startingDate).1
       ((civilFromDays startingDate).2.1 + 1) 1,
     addDate (daysFromCivil (civilFromDays startingDate).1
       ((civilFromDays startingDate).2.1 + 2) 1) 0 0 (-1))
  | .quarter =>
    (startingDate, addDate (addDate startingDate 0 3 0) 0 0 (-1),
     addDate startingDate 0 3 0, addDate (addDate startingDate 0 6 0) 0 0 (-1))
  | .year =>
    (startingDate, addDate (addDate startingDate 1 0 0) 0 0 (-1),
     addDate startingDate 1 0 0, addDate (addDate startingDate 2 0 0) 0 0 (-1))

/-- PeriodComparisonResult: the recent period sits in the Start slots and
the older period in the End slots. -/
structure PeriodComparisonResult where
  startPeriod : String
  startScore : String
  endPeriod : String
  endScore : String
  difference : String
deriving DecidableEq, Repr

/-- strings.TrimSuffix: remove one trailing occurrence when present. -/
def trimSuffix (s suffix : String) : String :=
  if suffix.data.isSuffixOf s.data then
    String.mk (s.data.take (s.data.length - suffix.data.length))
  else s

/-- Numeric value of a digit string read left to right. -/
def digitsToInt (l : List Char) : ℤ :=
  l.foldl (fun a c => 10 * a + ((c.toNat : ℤ) - 48)) 0

/-- strconv.ParseFloat restricted to plain decimal notation (optional sign,
digits, optional fractional part), the only shapes the score pipeline can
feed it; exotic accepted forms of the Go parser (exponents, hex floats,
inf/nan words) are outside the embedding. The value is exact over ℚ. -/
def parseDecimal (s : String) : Option ℚ :=
  let l := s.data
  let sgn : ℚ := match l with
    | '-' :: _ => -1
    | _ => 1
  let l2 : List Char := match l with
    | '+' :: r => r
    | '-' :: r => r
    | _ => l
  let ip := l2.takeWhile (fun c => c ≠ '.')
  match l2.dropWhile (fun c => c ≠ '.') with
  | [] =>
    if (∀ c ∈ ip, c.isDigit) ∧ ip ≠ [] then some (sgn * digitsToInt ip) else none
  | _ :: fp =>
    if (∀ c ∈ ip, c.isDigit) ∧ (∀ c ∈ fp, c.isDigit) ∧ (ip ≠ [] ∨ fp ≠ []) then
      some (sgn * ((digitsToInt ip : ℚ) + (digitsToInt fp : ℚ) / (10 : ℚ) ^ fp.length))
    else none

/-- Go fmt.Sprintf("%.1f", q): one decimal place, rounded half-to-even,
minus sign for negative values. -/
def goFmt1 (q : ℚ) : String :=
  (if q < 0 then "-" else "") ++
    toString (roundHalfEven (|q| * 10) / 10) ++ "." ++
    toString (roundHalfEven (|q| * 10) % 10)

/-- PeriodComparisonService.calculateDifference. -/
def calculateDifference (firstScore secondScore : String) : String :=
  if firstScore = "N/A" ∨ secondScore = "N/A" then "N/A"
  else
    match parseDecimal (trimSuffix firstScore "%") with
    | none => "N/A"
    | some value1 =>
      match parseDecimal (trimSuffix secondScore "%") with
      | none => "N/A"
      | some value2 =>
        if value1 = 0 then (if value2 = 0 then "0.0%" else "N/A")
        else
          if (value2 - value1) / value1 * 100 > 0 then
            "+" ++ goFmt1 ((value2 - value1) / value1 * 100) ++ "%"
          else if (value2 - value1) / value1 * 100 < 0 then
            goFmt1 ((value2 - value1) / value1 * 100) ++ "%"
          else "0.0%"

/-- PeriodComparisonService.GetPeriodComparison: the overall-quality service
dependency enters as a function from a period to its score record; the
second (chronologically later) period fills the Start slots. -/
def GetPeriodComparison (overallQuality : ℤ → ℤ → OverallQualityScore)
    (firstStart firstEnd secondStart secondEnd : ℤ) : PeriodComparisonResult :=
  { startPeriod := (overallQuality secondStart secondEnd).period,
    startScore := (overallQuality secondStart secondEnd).score,
    endPeriod := (overallQuality firstStart firstEnd).period,
    endScore := (overallQuality firstStart firstEnd).score,
    difference := calculateDifference (overallQuality firstStart firstEnd).score
      (overallQuality secondStart secondEnd).score }

/-! ## Helper lemmas about the score loop -/

theorem scoreLoop_ok (categories : List RatingCategory) :
    ∀ (l : List Rating) (w m : ℚ),
    (∀ r ∈ l, (categoryWeight categories r.ratingCategoryID).isSome) →
    (∀ r ∈ l, 0 ≤ r.rating ∧ r.rating ≤ 5) →
    scoreLoop categories l w m =
      .ok (w + weightedSum categories l, m + maxPossibleSum categories l) := by
  intro l
  induction l with
  | nil => intro w m _ _; simp [scoreLoop, weightedSum, maxPossibleSum]
  | cons r rs ih =>
    intro w m h1 h2
    obtain ⟨wt, hwt⟩ := Option.isSome_iff_exists.mp (h1 r (by simp))
    have hrange := h2 r (by simp)
    simp only [scoreLoop, hwt]
    rw [if_neg (show ¬(r.rating < 0 ∨ 5 < r.rating) by omega)]
    rw [ih (w + (r.rating : ℚ) * wt) (m + wt * 5)
      (fun x hx => h1 x (by simp [hx])) (fun x hx => h2 x (by simp [hx]))]
    simp only [weightedSum, maxPossibleSum, List.map_cons, List.sum_cons, hwt,
      Option.getD_some]
    ring_nf

theorem scoreLoop_error_of_bad (categories : List RatingCategory) :
    ∀ (l : List Rating) (w m : ℚ),
    (∃ r ∈ l, categoryWeight categories r.ratingCategoryID = none ∨
      r.rating < 0 ∨ 5 < r.rating) →
    ∃ e, scoreLoop categories l w m = .error e := by
  intro l
  induction l with
  | nil => intro w m h; simp at h
  | cons r rs ih =>
    intro w m h
    rcases hw : categoryWeight categories r.ratingCategoryID with _ | wt
    · simp only [scoreLoop, hw]
      exact ⟨_, rfl⟩
    · simp only [scoreLoop, hw]
      by_cases hr : r.rating < 0 ∨ 5 < r.rating
      · rw [if_pos hr]
        exact ⟨_, rfl⟩
      · rw [if_neg hr]
        apply ih
        rcases h with ⟨x, hx, hbad⟩
        rcases List.mem_cons.mp hx with rfl | hxs
        · rw [hw] at hbad
          rcases hbad with h' | h'
          · exact absurd h' (by simp)
          · exact absurd h' hr
        · exact ⟨x, hxs, hbad⟩

theorem CalculateScore_ok_of (ratings : List Rating) (categories : List RatingCategory)
    (hne : ratings ≠ [])
    (h1 : ∀ r ∈ ratings, (categoryWeight categories r.ratingCategoryID).isSome)
    (h2 : ∀ r ∈ ratings, 0 ≤ r.rating ∧ r.rating ≤ 5)
    (hm : maxPossibleSum categories ratings ≠ 0) :
    CalculateScore ratings categories =
      .ok (100 * weightedSum categories ratings / maxPossibleSum categories ratings) := by
  unfold CalculateScore
  rw [if_neg (by simp [List.length_eq_zero, hne])]
  rw [scoreLoop_ok categories ratings 0 0 h1 h2]
  simp only [zero_add]
  rw [if_neg hm]
  congr 1
  field_simp
  ring

theorem CalculateScore_ok_iff (ratings : List Rating) (categories : List RatingCategory) :
    (∃ s, CalculateScore ratings categories = .ok s) ↔
      (ratings ≠ [] ∧
       (∀ r ∈ ratings, (categoryWeight categories r.ratingCategoryID).isSome ∧
         0 ≤ r.rating ∧ r.rating ≤ 5) ∧
       maxPossibleSum categories ratings ≠ 0) := by
  constructor
  · rintro ⟨s, hs⟩
    have hne : ratings ≠ [] := by
      rintro rfl
      simp [CalculateScore] at hs
    have hlen : ¬(ratings.length = 0) := by simp [List.length_eq_zero, hne]
    have hgood : ∀ r ∈ ratings, (categoryWeight categories r.ratingCategoryID).isSome ∧
        0 ≤ r.rating ∧ r.rating ≤ 5 := by
      by_contra hg
      push_neg at hg
      obtain ⟨r, hr, hprop⟩ := hg
      have hbad : ∃ r ∈ ratings, categoryWeight categories r.ratingCategoryID = none ∨
          r.rating < 0 ∨ 5 < r.rating := by
        refine ⟨r, hr, ?_⟩
        by_cases hws : (categoryWeight categories r.ratingCategoryID).isSome
        · have := hprop hws
          right
          omega
        · exact Or.inl (Option.not_isSome_iff_eq_none.mp hws)
      obtain ⟨e, he⟩ := scoreLoop_error_of_bad categories ratings 0 0 hbad
      unfold CalculateScore at hs
      rw [if_neg hlen, he] at hs
      exact absurd hs (by simp)
    refine ⟨hne, hgood, ?_⟩
    intro hm
    unfold CalculateScore at hs
    rw [if_neg hlen,
      scoreLoop_ok categories ratings 0 0 (fun r hr => (hgood r hr).1)
        (fun r hr => (hgood r hr).2)] at hs
    simp only [zero_add] at hs
    rw [if_pos hm] at hs
    exact absurd hs (by simp)
  · rintro ⟨hne, hgood, hm⟩
    exact ⟨_, CalculateScore_ok_of ratings categories hne
      (fun r hr => (hgood r hr).1) (fun r hr => (hgood r hr).2) hm⟩

/-! ## Claim theorems -/

/-- C1: CalculateScore returns 100 x (sum of value times weight) divided by
(sum of weight times 5) whenever the rating list is nonempty, every rating
category is present, every value is in 0..5 and the maximum possible sum is
nonzero; and it fails with an error exactly when the list is empty, some
category is absent, some value is out of range, or that sum is zero. -/
theorem c1_calculateScore_contract (ratings : List Rating)
    (categories : List RatingCategory) :
    (ratings ≠ [] →
     (∀ r ∈ ratings, (categoryWeight categories r.ratingCategoryID).isSome) →
     (∀ r ∈ ratings, 0 ≤ r.rating ∧ r.rating ≤ 5) →
     maxPossibleSum categories ratings ≠ 0 →
     CalculateScore ratings categories =
       .ok (100 * weightedSum categories ratings / maxPossibleSum categories ratings)) ∧
    ((∀ s, CalculateScore ratings categories ≠ .ok s) ↔
      (ratings = [] ∨
       (∃ r ∈ ratings, categoryWeight categories r.ratingCategoryID = none) ∨
       (∃ r ∈ ratings, r.rating < 0 ∨ 5 < r.rating) ∨
       maxPossibleSum categories ratings = 0)) := by
  constructor
  · exact CalculateScore_ok_of ratings categories
  · rw [show (∀ s, CalculateScore ratings categories ≠ .ok s) ↔
        ¬∃ s, CalculateScore ratings categories = .ok s from not_exists.symm]
    rw [CalculateScore_ok_iff]
    constructor
    · intro hn
      by_cases hA : ratings = []
      · exact Or.inl hA
      by_cases hC : maxPossibleSum categories ratings = 0
      · exact Or.inr (Or.inr (Or.inr hC))
      have hB : ¬∀ r ∈ ratings, (categoryWeight categories r.ratingCategoryID).isSome ∧
          0 ≤ r.rating ∧ r.rating ≤ 5 := fun hB => hn ⟨hA, hB, hC⟩
      push_neg at hB
      obtain ⟨r, hr, hprop⟩ := hB
      by_cases hws : (categoryWeight categories r.ratingCategoryID).isSome
      · refine Or.inr (Or.inr (Or.inl ⟨r, hr, ?_⟩))
        have himp := hprop hws
        by_cases h0 : (0 : ℤ) ≤ r.rating
        · exact Or.inr (himp h0)
        · exact Or.inl (by omega)
      · exact Or.inr (Or.inl ⟨r, hr, Option.not_isSome_iff_eq_none.mp hws⟩)
    · rintro (hA | ⟨r, hr, hnone⟩ | ⟨r, hr, hbad⟩ | hC) ⟨hne, hgood, hm⟩
      · exact hne hA
      · have := (hgood r hr).1
        rw [hnone] at this
        simp at this
      · have := (hgood r hr).2
        omega
      · exact hm hC

/-- Witness for C1 at the repository test fixture of weighted ratings. -/
theorem c1_witness :
    CalculateScore [⟨1, 4, 1, 1, 1, 1, 0⟩, ⟨2, 2, 1, 2, 1, 1, 0⟩]
        [⟨1, "Spelling", 3⟩, ⟨2, "Grammar", 1⟩] =
      .ok (100 * weightedSum [⟨1, "Spelling", 3⟩, ⟨2, "Grammar", 1⟩]
          [⟨1, 4, 1, 1, 1, 1, 0⟩, ⟨2, 2, 1, 2, 1, 1, 0⟩] /
        maxPossibleSum [⟨1, "Spelling", 3⟩, ⟨2, "Grammar", 1⟩]
          [⟨1, 4, 1, 1, 1, 1, 0⟩, ⟨2, 2, 1, 2, 1, 1, 0⟩]) :=
  (c1_calculateScore_contract _ _).1 (by decide) (by decide) (by decide)
    (by norm_num [maxPossibleSum, categoryWeight])

theorem chunk_snd_eq_maxPossibleSum (p : List Rating) (categories : List RatingCategory) :
    (calculateChunkWeightedScore p categories).2 = maxPossibleSum categories p := by
  unfold calculateChunkWeightedScore maxPossibleSum
  simp [mul_comm]

theorem weightedSum_flatten (categories : List RatingCategory)
    (pages : List (List Rating)) :
    weightedSum categories pages.flatten =
      (pages.map (fun p => weightedSum categories p)).sum := by
  unfold weightedSum
  rw [List.map_flatten, List.sum_flatten, List.map_map]
  rfl

theorem maxPossibleSum_flatten (categories : List RatingCategory)
    (pages : List (List Rating)) :
    maxPossibleSum categories pages.flatten =
      (pages.map (fun p => maxPossibleSum categories p)).sum := by
  unfold maxPossibleSum
  rw [List.map_flatten, List.sum_flatten, List.map_map]
  rfl

/-- C2: summing the per-page (weightedSum, maxSum) pairs of
calculateChunkWeightedScore over any partition into pages and dividing
reproduces the CalculateScore result of the concatenation, whenever every
category is present, all values are in range, and the single call succeeds. -/
theorem c2_chunk_combination_law (pages : List (List Rating))
    (categories : List RatingCategory) (s : ℚ)
    (hpresent : ∀ r ∈ pages.flatten, (categoryWeight categories r.ratingCategoryID).isSome)
    (hrange : ∀ r ∈ pages.flatten, 0 ≤ r.rating ∧ r.rating ≤ 5)
    (hok : CalculateScore pages.flatten categories = .ok s) :
    100 * ((pages.map (fun p => (calculateChunkWeightedScore p categories).1)).sum) /
      ((pages.map (fun p => (calculateChunkWeightedScore p categories).2)).sum) = s := by
  obtain ⟨hne, hgood, hm⟩ := (CalculateScore_ok_iff pages.flatten categories).mp ⟨s, hok⟩
  have hval := CalculateScore_ok_of pages.flatten categories hne hpresent hrange hm
  rw [hok] at hval
  have e1 : (pages.map (fun p => (calculateChunkWeightedScore p categories).1)).sum =
      weightedSum categories pages.flatten := by
    rw [weightedSum_flatten]
    rfl
  have e2 : (pages.map (fun p => (calculateChunkWeightedScore p categories).2)).sum =
      maxPossibleSum categories pages.flatten := by
    rw [maxPossibleSum_flatten]
    congr 1
    exact List.map_congr_left (fun p _ => chunk_snd_eq_maxPossibleSum p categories)
  rw [e1, e2]
  exact (Except.ok.inj hval).symm

/-- Witness for C2 on a two-page partition. -/
theorem c2_witness :
    100 * (([[(⟨1, 4, 1, 1, 1, 1, 0⟩ : Rating)], [⟨2, 2, 1, 2, 1, 1, 0⟩]].map
        (fun p => (calculateChunkWeightedScore p
          [⟨1, "Spelling", 3⟩, ⟨2, "Grammar", 1⟩]).1)).sum) /
      (([[(⟨1, 4, 1, 1, 1, 1, 0⟩ : Rating)], [⟨2, 2, 1, 2, 1, 1, 0⟩]].map
        (fun p => (calculateChunkWeightedScore p
          [⟨1, "Spelling", 3⟩, ⟨2, "Grammar", 1⟩]).2)).sum) = 70 :=
  c2_chunk_combination_law [[⟨1, 4, 1, 1, 1, 1, 0⟩], [⟨2, 2, 1, 2, 1, 1, 0⟩]]
    [⟨1, "Spelling", 3⟩, ⟨2, "Grammar", 1⟩] 70 (by decide) (by decide)
    (by norm_num [CalculateScore, scoreLoop, categoryWeight])

/-- C3: with a positive rating count whose combined maximum possible sum over
all chunks is zero, GetOverallQualityScore succeeds with the numeric "0%",
not the "N/A" sentinel. -/
theorem c3_zero_weight_returns_zero_percent (allRatings : List Rating)
    (categories : List RatingCategory) (startDate endDate : ℤ)
    (hcount : allRatings.length ≠ 0)
    (hzero : ((chunkPages allRatings 1000).map
      (fun p => (calculateChunkWeightedScore p categories).2)).sum = 0) :
    GetOverallQualityScore allRatings categories startDate endDate =
      { period := FormatDateRange startDate endDate, score := "0%" } ∧
    (GetOverallQualityScore allRatings categories startDate endDate).score ≠ "N/A" := by
  have hs : GetOverallQualityScore allRatings categories startDate endDate =
      { period := FormatDateRange startDate endDate, score := "0%" } := by
    unfold GetOverallQualityScore
    rw [if_neg hcount]
    unfold processChunksConcurrently aggregateChunkResults
    rw [List.map_map, List.map_map]
    have hz : ((chunkPages allRatings 1000).map
        ((fun p => p.2) ∘ fun page => calculateChunkWeightedScore page categories)).sum =
        0 := hzero
    rw [hz]
    norm_num [FormatScore]
  refine ⟨hs, ?_⟩
  rw [hs]
  dsimp only
  decide

/-- Witness for C3: one rating in an unlisted category. -/
theorem c3_witness :
    GetOverallQualityScore [⟨1, 4, 1, 99, 1, 1, 0⟩] [] 0 3 =
      { period := FormatDateRange 0 3, score := "0%" } ∧
    (GetOverallQualityScore [⟨1, 4, 1, 99, 1, 1, 0⟩] [] 0 3).score ≠ "N/A" :=
  c3_zero_weight_returns_zero_percent [⟨1, 4, 1, 99, 1, 1, 0⟩] [] 0 3
    (by decide) (by norm_num [chunkPages, chunkPage, calculateChunkWeightedScore,
      categoryWeight, List.range_succ])

/-- C4 counterexample: with the per-category workers finishing in the order
second-then-first, the record lists Grammar before Spelling, so the entries
are not in category-store order even though the arrival order is a valid
permutation of the workers. -/
theorem c4_counterexample :
    (calculateTicketScore (fun _ _ => []) 1
        [⟨1, "Spelling", 10⟩, ⟨2, "Grammar", 5⟩] ([1, 0] : List (Fin 2))).categories ≠
      ([⟨1, "Spelling", 10⟩, ⟨2, "Grammar", 5⟩] : List RatingCategory).map
        (categoryScore (fun _ _ => []) 1) ∧
    ([1, 0] : List (Fin 2)).Perm (List.finRange 2) := by
  constructor
  · decide
  · decide

/-- C4 amended: a TicketScore built by calculateTicketScore holds exactly one
entry per category of the store (as a permutation of the per-category
results), with an "N/A" entry for every category without ratings for the
ticket; the order of the entries is the completion order of the concurrent
workers, which is unspecified, not necessarily the store order. -/
theorem c4_ticketScore_entries (repoTicketCategory : ℤ → ℤ → List Rating)
    (ticketID : ℤ) (categories : List RatingCategory)
    (arrival : List (Fin categories.length))
    (hperm : arrival.Perm (List.finRange categories.length)) :
    (calculateTicketScore repoTicketCategory ticketID categories arrival).categories.Perm
      (categories.map (categoryScore repoTicketCategory ticketID)) ∧
    (∀ cat ∈ categories, repoTicketCategory ticketID cat.id = [] →
      ({ categoryName := cat.name, score := "N/A" } : TicketCategoryScore) ∈
        (calculateTicketScore repoTicketCategory ticketID categories arrival).categories) := by
  have hmain :
      (calculateTicketScore repoTicketCategory ticketID categories arrival).categories.Perm
        (categories.map (categoryScore repoTicketCategory ticketID)) := by
    unfold calculateTicketScore
    dsimp only
    have h1 := hperm.map (fun i => categoryScore repoTicketCategory ticketID
      (categories.get i))
    have h2 : (List.finRange categories.length).map
        (fun i => categoryScore repoTicketCategory ticketID (categories.get i)) =
        categories.map (categoryScore repoTicketCategory ticketID) := by
      rw [show (fun i => categoryScore repoTicketCategory ticketID (categories.get i)) =
        (categoryScore repoTicketCategory ticketID) ∘ categories.get from rfl]
      rw [← List.map_map, List.finRange_map_get]
    rw [h2] at h1
    exact h1
  refine ⟨hmain, ?_⟩
  intro cat hcat hempty
  have hna : categoryScore repoTicketCategory ticketID cat =
      { categoryName := cat.name, score := "N/A" } := by
    unfold categoryScore
    rw [hempty]
    rfl
  refine hmain.mem_iff.mpr ?_
  rw [← hna]
  exact List.mem_map_of_mem _ hcat

/-- Witness for C4 at a concrete two-category store with reversed arrival. -/
theorem c4_witness :
    (calculateTicketScore (fun _ _ => []) 1
        [⟨1, "Spelling", 10⟩, ⟨2, "Grammar", 5⟩] ([1, 0] : List (Fin 2))).categories.Perm
      (([⟨1, "Spelling", 10⟩, ⟨2, "Grammar", 5⟩] : List RatingCategory).map
        (categoryScore (fun _ _ => []) 1)) :=
  (c4_ticketScore_entries (fun _ _ => []) 1 [⟨1, "Spelling", 10⟩, ⟨2, "Grammar", 5⟩]
    ([1, 0] : List (Fin 2)) (by decide)).1

/-- C5 counterexample: the Go %.0f verb rounds half to even, so the
half-integer score 2.5 formats as "2%", not away from zero to "3%", and 0.5
formats as "0%", not "1%". -/
theorem c5_counterexample :
    formatScore (5 / 2 : ℚ) = "2%" ∧ formatScore (5 / 2 : ℚ) ≠ "3%" ∧
    FormatScore (1 / 2 : ℚ) = "0%" ∧ FormatScore (1 / 2 : ℚ) ≠ "1%" := by
  have h1 : roundHalfEven (5 / 2 : ℚ) = 2 := by
    unfold roundHalfEven
    norm_num
  have h2 : roundHalfEven (1 / 2 : ℚ) = 0 := by
    unfold roundHalfEven
    norm_num
  have e1 : formatScore (5 / 2 : ℚ) = "2%" := by
    unfold formatScore goFmt0
    rw [if_neg (by norm_num), abs_of_nonneg (by norm_num), h1]
    rfl
  have e2 : FormatScore (1 / 2 : ℚ) = "0%" := by
    unfold FormatScore goFmt0
    rw [if_neg (by norm_num), if_neg (by norm_num), abs_of_nonneg (by norm_num), h2]
    rfl
  exact ⟨e1, by rw [e1]; decide, e2, by rw [e2]; decide⟩

/-- C5 amended: every score string the engines format is the decimal digits
of an integer followed by the percent sign, where the integer is the nearest
one (never off by more than one half) and an exact half rounds to the even
neighbour, not away from zero; "N/A" is produced only by the sentinel
branches upstream of the formatter. -/
theorem c5_formatScore_rounding (q : ℚ) (hq : 0 ≤ q) :
    formatScore q = toString (roundHalfEven q) ++ "%" ∧
    FormatScore q = toString (roundHalfEven q) ++ "%" ∧
    |q - (roundHalfEven q : ℚ)| ≤ 1 / 2 ∧
    (|q - (roundHalfEven q : ℚ)| = 1 / 2 → roundHalfEven q % 2 = 0) := by
  have hfmt : formatScore q = toString (roundHalfEven q) ++ "%" := by
    unfold formatScore goFmt0
    rw [if_neg (not_lt.mpr hq), abs_of_nonneg hq]
    rfl
  have hFmt : FormatScore q = toString (roundHalfEven q) ++ "%" := by
    by_cases h0 : q = 0
    · subst h0
      have : roundHalfEven (0 : ℚ) = 0 := by unfold roundHalfEven; norm_num
      rw [this]
      rfl
    · unfold FormatScore goFmt0
      rw [if_neg h0, if_neg (not_lt.mpr hq), abs_of_nonneg hq]
      rfl
  refine ⟨hfmt, hFmt, ?_, ?_⟩
  all_goals
    have hf1 : ((⌊q⌋ : ℤ) : ℚ) ≤ q := Int.floor_le q
    have hf2 : q < (⌊q⌋ : ℚ) + 1 := Int.lt_floor_add_one q
    unfold roundHalfEven
    split_ifs with ha hb hc
  · rw [abs_of_nonneg (by linarith)]
    linarith
  · rw [abs_of_nonpos (by push_cast; linarith)]
    push_cast
    linarith
  · rw [abs_of_nonneg (by linarith)]
    linarith
  · rw [abs_of_nonpos (by push_cast; linarith)]
    push_cast
    linarith
  · intro habs
    rw [abs_of_nonneg (by linarith)] at habs
    linarith
  · intro habs
    rw [abs_of_nonpos (by push_cast; linarith)] at habs
    push_cast at habs
    linarith
  · intro _
    exact hc
  · intro _
    have : ¬(1 / 2 < q - (⌊q⌋ : ℚ)) := hb
    omega

/-- Witness for C5 at the half-integer 5/2. -/
theorem c5_witness :
    formatScore (5 / 2 : ℚ) = toString (roundHalfEven (5 / 2 : ℚ)) ++ "%" ∧
    FormatScore (5 / 2 : ℚ) = toString (roundHalfEven (5 / 2 : ℚ)) ++ "%" ∧
    |(5 / 2 : ℚ) - (roundHalfEven (5 / 2 : ℚ) : ℚ)| ≤ 1 / 2 ∧
    (|(5 / 2 : ℚ) - (roundHalfEven (5 / 2 : ℚ) : ℚ)| = 1 / 2 →
      roundHalfEven (5 / 2 : ℚ) % 2 = 0) :=
  c5_formatScore_rounding (5 / 2) (by norm_num)

theorem dayList_eq (s e : ℤ) :
    dayList s e = if e < s then [] else s :: dayList (s + 1) e := by
  unfold dayList
  split_ifs with h
  · rw [show (e + 1 - s).toNat = 0 by omega]
    rfl
  · rw [show (e + 1 - s).toNat = (e + 1 - (s + 1)).toNat + 1 by omega,
      List.range_succ_eq_map]
    simp only [List.map_cons, List.map_map]
    refine congrArg₂ _ (by norm_num) ?_
    exact List.map_congr_left (fun i _ => by
      simp only [Function.comp_apply]
      push_cast
      ring)

theorem getRatingsForDateRangeAux_eq (repo : ℤ → List Rating) (e : ℤ) :
    ∀ (fuel : ℕ) (c : ℤ), (e + 1 - c).toNat ≤ fuel →
    getRatingsForDateRangeAux repo e c fuel = ((dayList c e).map repo).flatten := by
  intro fuel
  induction fuel with
  | zero =>
    intro c h
    rw [dayList_eq, if_pos (by omega)]
    rfl
  | succ f ih =>
    intro c h
    simp only [getRatingsForDateRangeAux]
    by_cases hc : c > e
    · rw [if_pos hc, dayList_eq, if_pos (by omega)]
      rfl
    · have hstep : dayList c e = c :: dayList (c + 1) e := by
        rw [dayList_eq, if_neg (by omega)]
      have hih : getRatingsForDateRangeAux repo e (c + 1) f =
          ((dayList (c + 1) e).map repo).flatten := ih (c + 1) (by omega)
      rw [if_neg hc, addDate_days, hih, hstep]
      simp

theorem getRatingsForDateRange_eq (repo : ℤ → List Rating) (s e : ℤ) :
    getRatingsForDateRange repo s e = ((dayList s e).map repo).flatten :=
  getRatingsForDateRangeAux_eq repo e (e + 1 - s).toNat s (le_refl _)

theorem bucketStarts_eq (ws e : ℤ) :
    bucketStarts ws e = if e < ws then [] else ws :: bucketStarts (ws + 7) e := by
  unfold bucketStarts
  split_ifs with h
  · rw [show ((e + 1 - ws).toNat + 6) / 7 = 0 by omega]
    rfl
  · rw [show ((e + 1 - ws).toNat + 6) / 7 = ((e + 1 - (ws + 7)).toNat + 6) / 7 + 1 by omega,
      List.range_succ_eq_map]
    simp only [List.map_cons, List.map_map]
    refine congrArg₂ _ (by norm_num) ?_
    exact List.map_congr_left (fun i _ => by
      simp only [Function.comp_apply]
      push_cast
      ring)

theorem cond_append_eq {α : Type} (l x : List α) :
    (if l.length > 0 then l else []) ++ x = l ++ x := by
  cases l <;> simp

theorem calculateWeeklyScoresAux_eq (repo : ℤ → List Rating)
    (category : RatingCategory) (e : ℤ) :
    ∀ (fuel : ℕ) (ws : ℤ), (e + 1 - ws).toNat ≤ fuel →
    calculateWeeklyScoresAux repo category e ws fuel =
      ((bucketStarts ws e).map (fun b =>
        calculatePeriodScore (getRatingsForDateRange repo b (min (b + 6) e)) category
          (formatDate b ++ " to " ++ formatDate (min (b + 6) e))),
       ((bucketStarts ws e).map (fun b =>
         getRatingsForDateRange repo b (min (b + 6) e))).flatten) := by
  intro fuel
  induction fuel with
  | zero =>
    intro ws h
    rw [bucketStarts_eq, if_pos (by omega)]
    rfl
  | succ f ih =>
    intro ws h
    simp only [calculateWeeklyScoresAux]
    by_cases hw : ws > e
    · rw [if_pos hw, bucketStarts_eq, if_pos (by omega)]
      rfl
    · have hstep : bucketStarts ws e = ws :: bucketStarts (ws + 7) e := by
        rw [bucketStarts_eq, if_neg (by omega)]
      have hih := ih (ws + 7) (by omega)
      have hmin : (if ws + 6 > e then e else ws + 6) = min (ws + 6) e := by
        rw [min_def]
        split_ifs <;> omega
      rw [if_neg hw]
      simp only [addDate_days]
      rw [hmin, hih, hstep]
      simp only [List.map_cons, List.flatten_cons]
      exact Prod.ext rfl (cond_append_eq _ _)

theorem calculateWeeklyScores_eq (repo : ℤ → List Rating)
    (category : RatingCategory) (startDate endDate : ℤ) :
    calculateWeeklyScores repo category startDate endDate =
      ((bucketStarts (getWeekStart startDate) endDate).map (fun b =>
        calculatePeriodScore (getRatingsForDateRange repo b (min (b + 6) endDate))
          category (formatDate b ++ " to " ++ formatDate (min (b + 6) endDate))),
       ((bucketStarts (getWeekStart startDate) endDate).map (fun b =>
         getRatingsForDateRange repo b (min (b + 6) endDate))).flatten) :=
  calculateWeeklyScoresAux_eq repo category endDate _ (getWeekStart startDate) (le_refl _)

theorem getWeekStart_days (t : ℤ) :
    getWeekStart t = t - ((if (t + 1) % 7 = 0 then 7 else (t + 1) % 7) - 1) := by
  unfold getWeekStart weekday
  rw [addDate_days]
  ring

/-- C6 as amended: in weekly mode the buckets start at the Monday on or
before startDate (the Monday itself when startDate is one), advance by 7
days, are clipped to endDate, draw their ratings from the union of the
per-day fetches of their days, and are labelled "start to end" - including
a bucket that collapses to a single day, which is labelled "d to d", not
with the single date the specification describes. -/
theorem c6_weekly_buckets (repo : ℤ → List Rating) (category : RatingCategory)
    (startDate endDate : ℤ) :
    (shouldUseWeeklyAggregation startDate endDate = true →
      calculateScores repo category startDate endDate =
        calculateWeeklyScores repo category startDate endDate) ∧
    weekday (getWeekStart startDate) = 1 ∧
    getWeekStart startDate ≤ startDate ∧
    startDate - getWeekStart startDate < 7 ∧
    (∀ a b : ℤ, getRatingsForDateRange repo a b = ((dayList a b).map repo).flatten) ∧
    (calculateWeeklyScores repo category startDate endDate).1 =
      (bucketStarts (getWeekStart startDate) endDate).map (fun b =>
        calculatePeriodScore (getRatingsForDateRange repo b (min (b + 6) endDate))
          category (formatDate b ++ " to " ++ formatDate (min (b + 6) endDate))) ∧
    (calculateWeeklyScores repo category startDate endDate).2 =
      ((bucketStarts (getWeekStart startDate) endDate).map (fun b =>
        getRatingsForDateRange repo b (min (b + 6) endDate))).flatten := by
  refine ⟨?_, ?_, ?_, ?_, ?_, ?_, ?_⟩
  · intro h
    unfold calculateScores
    rw [if_pos h]
  · have := getWeekStart_days startDate
    unfold weekday at *
    split_ifs at this <;> omega
  · have := getWeekStart_days startDate
    split_ifs at this <;> omega
  · have := getWeekStart_days startDate
    split_ifs at this <;> omega
  · exact fun a b => getRatingsForDateRange_eq repo a b
  · rw [calculateWeeklyScores_eq]
  · rw [calculateWeeklyScores_eq]

/-- Witness for C6 on the 2019-10-01 to 2019-11-04 range. -/
theorem c6_witness :
    calculateScores (fun _ => []) ⟨1, "Spelling", 10⟩
        (daysFromCivil 2019 10 1) (daysFromCivil 2019 11 4) =
      calculateWeeklyScores (fun _ => []) ⟨1, "Spelling", 10⟩
        (daysFromCivil 2019 10 1) (daysFromCivil 2019 11 4) :=
  (c6_weekly_buckets (fun _ => []) ⟨1, "Spelling", 10⟩ _ _).1 (by decide)

/-- C6 counterexample: over 2019-10-01 to 2019-11-04 the final weekly bucket
collapses to the single day 2019-11-04, and its label is
"2019-11-04 to 2019-11-04" rather than the single date the claim states. -/
theorem c6_counterexample :
    shouldUseWeeklyAggregation (daysFromCivil 2019 10 1) (daysFromCivil 2019 11 4) =
      true ∧
    ((calculateWeeklyScores (fun _ => []) ⟨1, "Spelling", 10⟩
        (daysFromCivil 2019 10 1) (daysFromCivil 2019 11 4)).1.map
      (fun d => d.date)).getLast? = some "2019-11-04 to 2019-11-04" ∧
    "2019-11-04 to 2019-11-04" ≠ "2019-11-04" := by
  exact ⟨by decide, by decide, by decide⟩

/-- C7: GetCategoryAnalytics switches to weekly bucketing exactly when the
range exceeds 30 days; a range of exactly 30 days stays daily. -/
theorem c7_weekly_threshold (repo : ℤ → List Rating) (category : RatingCategory)
    (startDate endDate : ℤ) :
    (shouldUseWeeklyAggregation startDate endDate = true ↔
      30 < endDate - startDate) ∧
    (30 < endDate - startDate →
      calculateScores repo category startDate endDate =
        calculateWeeklyScores repo category startDate endDate) ∧
    (endDate - startDate ≤ 30 →
      calculateScores repo category startDate endDate =
        calculateDailyScores repo category startDate endDate) := by
  have hiff : shouldUseWeeklyAggregation startDate endDate = true ↔
      30 < endDate - startDate := by
    unfold shouldUseWeeklyAggregation
    rw [decide_eq_true_eq]
    omega
  refine ⟨hiff, ?_, ?_⟩
  · intro h
    unfold calculateScores
    rw [if_pos (hiff.mpr h)]
  · intro h
    unfold calculateScores
    rw [if_neg (by rw [hiff]; omega)]

/-- Witness for C7 at the 30-day boundary. -/
theorem c7_witness :
    calculateScores (fun _ => []) ⟨1, "Spelling", 10⟩ 0 30 =
      calculateDailyScores (fun _ => []) ⟨1, "Spelling", 10⟩ 0 30 :=
  (c7_weekly_threshold (fun _ => []) ⟨1, "Spelling", 10⟩ 0 30).2.2 (by decide)

theorem dayList_split_aux :
    ∀ (n : ℕ) (a b e : ℤ), (b + 1 - a).toNat = n → a ≤ b + 1 → b ≤ e →
    dayList a e = dayList a b ++ dayList (b + 1) e := by
  intro n
  induction n with
  | zero =>
    intro a b e hn h1 h2
    have ha : a = b + 1 := by omega
    subst ha
    have hnil : dayList (b + 1) b = [] := by
      rw [dayList_eq, if_pos (by omega)]
    rw [hnil]
    rfl
  | succ k ih =>
    intro a b e hn h1 h2
    have ha : a ≤ b := by omega
    rw [dayList_eq a e, if_neg (by omega), dayList_eq a b, if_neg (by omega)]
    rw [ih (a + 1) b e (by omega) (by omega) h2]
    rfl

theorem dayList_split (a b e : ℤ) (h1 : a ≤ b + 1) (h2 : b ≤ e) :
    dayList a e = dayList a b ++ dayList (b + 1) e :=
  dayList_split_aux (b + 1 - a).toNat a b e rfl h1 h2

theorem buckets_cover (repo : ℤ → List Rating) (e : ℤ) :
    ∀ (n : ℕ) (ws : ℤ), (e + 1 - ws).toNat = n →
    ((bucketStarts ws e).map (fun b =>
      ((dayList b (min (b + 6) e)).map repo).flatten)).flatten =
      ((dayList ws e).map repo).flatten := by
  intro n
  induction n using Nat.strong_induction_on with
  | _ n ih =>
    intro ws hn
    by_cases hw : e < ws
    · rw [bucketStarts_eq, if_pos hw, dayList_eq, if_pos hw]
      rfl
    · rw [bucketStarts_eq, if_neg (by omega)]
      simp only [List.map_cons, List.flatten_cons]
      by_cases hend : e ≤ ws + 6
      · have hmin : min (ws + 6) e = e := by omega
        have hrest : bucketStarts (ws + 7) e = [] := by
          rw [bucketStarts_eq, if_pos (by omega)]
        rw [hmin, hrest]
        simp
      · have hmin : min (ws + 6) e = ws + 6 := by omega
        have hsplit := dayList_split ws (ws + 6) e (by omega) (by omega)
        rw [hmin, hsplit]
        have hrec := ih (e + 1 - (ws + 7)).toNat (by omega) (ws + 7) rfl
        rw [show ws + 6 + 1 = ws + 7 by ring] at hsplit ⊢
        rw [hrec]
        simp

/-- C10: in weekly mode with a startDate that is not a Monday, the
accumulated ratings are the union of the per-day fetches from the Monday
strictly before startDate through endDate, so the reported per-category
count ranges over days before startDate and the first bucket label starts
at that earlier Monday. -/
theorem c10_weekly_prefetch (repo : ℤ → List Rating) (category : RatingCategory)
    (startDate endDate : ℤ) (hmon : weekday startDate ≠ 1) :
    getWeekStart startDate < startDate ∧
    (calculateWeeklyScores repo category startDate endDate).2 =
      ((dayList (getWeekStart startDate) endDate).map repo).flatten ∧
    (shouldUseWeeklyAggregation startDate endDate = true →
      (processCategoryAnalytics repo category startDate endDate).ratings =
        (((dayList (getWeekStart startDate) endDate).map repo).flatten).length) ∧
    (getWeekStart startDate ≤ endDate →
      (calculateWeeklyScores repo category startDate endDate).1.head? =
        some (calculatePeriodScore
          (getRatingsForDateRange repo (getWeekStart startDate)
            (min (getWeekStart startDate + 6) endDate)) category
          (formatDate (getWeekStart startDate) ++ " to " ++
            formatDate (min (getWeekStart startDate + 6) endDate)))) := by
  have hlt : getWeekStart startDate < startDate := by
    have := getWeekStart_days startDate
    unfold weekday at hmon
    split_ifs at this <;> omega
  have htotal : (calculateWeeklyScores repo category startDate endDate).2 =
      ((dayList (getWeekStart startDate) endDate).map repo).flatten := by
    rw [calculateWeeklyScores_eq]
    dsimp only
    rw [List.map_congr_left (fun b _ => getRatingsForDateRange_eq repo b
      (min (b + 6) endDate))]
    exact buckets_cover repo endDate (endDate + 1 - getWeekStart startDate).toNat
      (getWeekStart startDate) rfl
  refine ⟨hlt, htotal, ?_, ?_⟩
  · intro hweek
    unfold processCategoryAnalytics
    dsimp only
    unfold calculateScores
    rw [if_pos hweek, htotal]
  · intro hle
    rw [calculateWeeklyScores_eq]
    dsimp only
    rw [bucketStarts_eq, if_neg (by omega)]
    rfl

/-- Witness for C10 at the Tuesday 2019-10-01. -/
theorem c10_witness :
    getWeekStart (daysFromCivil 2019 10 1) < daysFromCivil 2019 10 1 :=
  (c10_weekly_prefetch (fun _ => []) ⟨1, "Spelling", 10⟩
    (daysFromCivil 2019 10 1) (daysFromCivil 2019 11 4) (by decide)).1

/-- C8: calculatePeriodDates derives two consecutive non-overlapping
inclusive periods (WEEK: start+6/start+7/start+13; MONTH: to the day before
the first of the next month, then the whole next month; QUARTER and YEAR by
calendar addition of 3/6 months and 1/2 years minus one day), the second
period always starting the day after the first ends; GetPeriodComparison
places the chronologically later second period in the start slots and the
first period in the end slots. -/
theorem c8_period_derivation (s : ℤ) (pt : PeriodType)
    (overallQuality : ℤ → ℤ → OverallQualityScore) :
    (calculatePeriodDates s pt).1 = s ∧
    (calculatePeriodDates s pt).2.2.1 = (calculatePeriodDates s pt).2.1 + 1 ∧
    (pt = .week →
      (calculatePeriodDates s pt).2.1 = s + 6 ∧
      (calculatePeriodDates s pt).2.2.1 = s + 7 ∧
      (calculatePeriodDates s pt).2.2.2 = s + 13) ∧
    (pt = .month →
      (calculatePeriodDates s pt).2.2.1 =
        daysFromCivil (civilFromDays s).1 ((civilFromDays s).2.1 + 1) 1 ∧
      (calculatePeriodDates s pt).2.1 =
        daysFromCivil (civilFromDays s).1 ((civilFromDays s).2.1 + 1) 1 - 1 ∧
      (calculatePeriodDates s pt).2.2.2 =
        daysFromCivil (civilFromDays s).1 ((civilFromDays s).2.1 + 2) 1 - 1) ∧
    (pt = .quarter →
      (calculatePeriodDates s pt).2.1 = addDate s 0 3 0 - 1 ∧
      (calculatePeriodDates s pt).2.2.1 = addDate s 0 3 0 ∧
      (calculatePeriodDates s pt).2.2.2 = addDate s 0 6 0 - 1) ∧
    (pt = .year →
      (calculatePeriodDates s pt).2.1 = addDate s 1 0 0 - 1 ∧
      (calculatePeriodDates s pt).2.2.1 = addDate s 1 0 0 ∧
      (calculatePeriodDates s pt).2.2.2 = addDate s 2 0 0 - 1) ∧
    ((GetPeriodComparison overallQuality (calculatePeriodDates s pt).1
        (calculatePeriodDates s pt).2.1 (calculatePeriodDates s pt).2.2.1
        (calculatePeriodDates s pt).2.2.2).startPeriod =
      (overallQuality (calculatePeriodDates s pt).2.2.1
        (calculatePeriodDates s pt).2.2.2).period ∧
     (GetPeriodComparison overallQuality (calculatePeriodDates s pt).1
        (calculatePeriodDates s pt).2.1 (calculatePeriodDates s pt).2.2.1
        (calculatePeriodDates s pt).2.2.2).startScore =
      (overallQuality (calculatePeriodDates s pt).2.2.1
        (calculatePeriodDates s pt).2.2.2).score ∧
     (GetPeriodComparison overallQuality (calculatePeriodDates s pt).1
        (calculatePeriodDates s pt).2.1 (calculatePeriodDates s pt).2.2.1
        (calculatePeriodDates s pt).2.2.2).endPeriod =
      (overallQuality (calculatePeriodDates s pt).1
        (calculatePeriodDates s pt).2.1).period ∧
     (GetPeriodComparison overallQuality (calculatePeriodDates s pt).1
        (calculatePeriodDates s pt).2.1 (calculatePeriodDates s pt).2.2.1
        (calculatePeriodDates s pt).2.2.2).endScore =
      (overallQuality (calculatePeriodDates s pt).1
        (calculatePeriodDates s pt).2.1).score) := by
  cases pt <;>
    refine ⟨rfl, ?_, ?_, ?_, ?_, ?_, rfl, rfl, rfl, rfl⟩ <;>
    first
      | (simp only [calculatePeriodDates, addDate_days]; omega)
      | (intro hpt
         first
           | exact absurd hpt (by decide)
           | (refine ⟨?_, ?_, ?_⟩ <;>
               simp only [calculatePeriodDates, addDate_days] <;> omega))

/-- Witness for C8 at the week unit on 2019-10-01. -/
theorem c8_witness :
    (calculatePeriodDates (daysFromCivil 2019 10 1) .week).2.1 =
        daysFromCivil 2019 10 1 + 6 ∧
    (calculatePeriodDates (daysFromCivil 2019 10 1) .week).2.2.1 =
        daysFromCivil 2019 10 1 + 7 ∧
    (calculatePeriodDates (daysFromCivil 2019 10 1) .week).2.2.2 =
        daysFromCivil 2019 10 1 + 13 :=
  (c8_period_derivation (daysFromCivil 2019 10 1) .week
    (fun _ _ => ⟨"", ""⟩)).2.2.1 rfl

/-- C9: calculateDifference returns the relative change
((recent - older) / older) x 100 formatted to one decimal with an explicit
plus sign when positive and the minus sign of the formatter when negative,
"0.0%" when the parsed values are equal or both zero, and "N/A" when either
input is the sentinel, either fails to parse, or the older value is zero
while the recent one is not; on ("82%", "89%") it returns "+8.5%". -/
theorem c9_calculateDifference_spec :
    (∀ s2, calculateDifference "N/A" s2 = "N/A") ∧
    (∀ s1, calculateDifference s1 "N/A" = "N/A") ∧
    (∀ s1 s2, s1 ≠ "N/A" → s2 ≠ "N/A" →
      parseDecimal (trimSuffix s1 "%") = none →
      calculateDifference s1 s2 = "N/A") ∧
    (∀ s1 s2 v1, s1 ≠ "N/A" → s2 ≠ "N/A" →
      parseDecimal (trimSuffix s1 "%") = some v1 →
      parseDecimal (trimSuffix s2 "%") = none →
      calculateDifference s1 s2 = "N/A") ∧
    (∀ s1 s2 v1 v2, s1 ≠ "N/A" → s2 ≠ "N/A" →
      parseDecimal (trimSuffix s1 "%") = some v1 →
      parseDecimal (trimSuffix s2 "%") = some v2 →
      ((v1 = 0 → v2 = 0 → calculateDifference s1 s2 = "0.0%") ∧
       (v1 = 0 → v2 ≠ 0 → calculateDifference s1 s2 = "N/A") ∧
       (v1 ≠ 0 → v2 = v1 → calculateDifference s1 s2 = "0.0%") ∧
       (v1 ≠ 0 → 0 < (v2 - v1) / v1 * 100 →
         calculateDifference s1 s2 = "+" ++ goFmt1 ((v2 - v1) / v1 * 100) ++ "%") ∧
       (v1 ≠ 0 → (v2 - v1) / v1 * 100 < 0 →
         calculateDifference s1 s2 = goFmt1 ((v2 - v1) / v1 * 100) ++ "%"))) ∧
    calculateDifference "82%" "89%" = "+8.5%" := by
  have hna : ∀ s1 s2 : String, s1 = "N/A" ∨ s2 = "N/A" →
      calculateDifference s1 s2 = "N/A" := by
    intro s1 s2 h
    unfold calculateDifference
    rw [if_pos h]
  refine ⟨fun s2 => hna _ s2 (Or.inl rfl), fun s1 => hna s1 _ (Or.inr rfl),
    ?_, ?_, ?_, ?_⟩
  · intro s1 s2 h1 h2 hp
    unfold calculateDifference
    rw [if_neg (by simp [h1, h2])]
    rw [hp]
  · intro s1 s2 v1 h1 h2 hp1 hp2
    unfold calculateDifference
    rw [if_neg (by simp [h1, h2])]
    rw [hp1, hp2]
  · intro s1 s2 v1 v2 h1 h2 hp1 hp2
    unfold calculateDifference
    rw [if_neg (by simp [h1, h2])]
    rw [hp1, hp2]
    dsimp only
    refine ⟨?_, ?_, ?_, ?_, ?_⟩
    · intro hz1 hz2
      rw [if_pos hz1, if_pos hz2]
    · intro hz1 hz2
      rw [if_pos hz1, if_neg hz2]
    · intro hz1 heq
      rw [if_neg hz1, if_neg (by rw [heq]; simp), if_neg (by rw [heq]; simp)]
    · intro hz1 hpos
      rw [if_neg hz1, if_pos hpos]
    · intro hz1 hneg
      rw [if_neg hz1, if_neg (by linarith), if_pos hneg]
  · have ht1 : trimSuffix "82%" "%" = "82" := by decide
    have ht2 : trimSuffix "89%" "%" = "89" := by decide
    have hp1 : parseDecimal "82" = some 82 := by
      simp +decide [parseDecimal, digitsToInt]
    have hp2 : parseDecimal "89" = some 89 := by
      simp +decide [parseDecimal, digitsToInt]
    unfold calculateDifference
    rw [if_neg (by decide), ht1, ht2, hp1, hp2]
    dsimp only
    rw [if_neg (by norm_num)]
    rw [if_pos (by norm_num)]
    have hq : ((89 - 82) / 82 * 100 : ℚ) = 350 / 41 := by norm_num
    have hfl : ⌊(350 / 41 : ℚ) * 10⌋ = 85 := by norm_num
    have hrhe : roundHalfEven ((350 / 41 : ℚ) * 10) = 85 := by
      unfold roundHalfEven
      rw [hfl, if_pos (by norm_num)]
    have hfmt : goFmt1 (350 / 41 : ℚ) = "8.5" := by
      unfold goFmt1
      rw [if_neg (by norm_num), abs_of_nonneg (show (0:ℚ) ≤ 350 / 41 by norm_num),
        hrhe]
      rfl
    rw [hq, hfmt]
    rfl

/-- Witness for C9 at an unparsable older score. -/
theorem c9_witness : calculateDifference "abc" "89%" = "N/A" :=
  c9_calculateDifference_spec.2.2.1 "abc" "89%" (by decide) (by decide)
    (by simp +decide [parseDecimal, trimSuffix])
